import Mathlib

/-!
Verification development for the SmartMailGuard email-validation service
(`src/main.py`). The Python program is shallowly embedded: string methods are
modelled at the level of character lists, the process-wide disposable-domain
set as a `Finset String`, the per-source HTTP fetch outcomes as an explicit
datatype, DNS resolution as an oracle function, the `lru_cache` decorator as
an explicit most-recently-used-first association list of capacity 1000, and
`asyncio.gather` as slot-filling under an arbitrary completion order.
-/

namespace SmartMailGuard

/-! ## Character-list string primitives (models of Python string methods) -/

/-- Model of the Python method `str.strip` at ASCII level: drop whitespace
from both ends of a character list. -/
def stripChars (l : List Char) : List Char :=
  ((l.dropWhile Char.isWhitespace).reverse.dropWhile Char.isWhitespace).reverse

/-- Model of the Python method `str.lower` at ASCII level: lowercase every
character. -/
def lowerChars (l : List Char) : List Char :=
  l.map Char.toLower

/-- String-level wrapper of `lowerChars`. -/
def lowerStr (s : String) : String :=
  ⟨lowerChars s.data⟩

/-- Model of `s.split(sep)[-1]` for a one-character separator: the substring
after the last occurrence of `sep` (the whole string when `sep` is absent). -/
def afterLast (sep : Char) (l : List Char) : List Char :=
  (l.reverse.takeWhile (fun c => !(c == sep))).reverse

/-- Model of splitting a character list on a separator character, as in the
Python call `text.splitlines()` used with newline-delimited payloads. -/
def splitOnChar (sep : Char) : List Char → List (List Char)
  | [] => [[]]
  | c :: cs =>
    match splitOnChar sep cs with
    | [] => [[]]
    | line :: rest =>
      if c == sep then [] :: line :: rest
      else (c :: line) :: rest

/-- Model of `url.endswith(".json")` from line 33 of `src/main.py`: the last
five characters of the URL are `.json`. -/
def urlIsJson (url : String) : Bool :=
  decide (url.data.reverse.take 5 = ".json".data.reverse)

/-! ## Scorer (`interpret_score`, lines 79-87, and the score arithmetic of
`validate_email`, lines 110-114) -/

/-- Embedding of `interpret_score` (lines 79-87 of `src/main.py`). -/
def interpret_score (score : Int) : String :=
  if score ≥ 90 then "High trust: valid format, likely safe"
  else if score ≥ 70 then "Medium trust: may be valid but needs caution"
  else if score ≥ 40 then "Low trust: suspicious or disposable"
  else "Very low trust: likely fake or invalid"

/-- Embedding of the score arithmetic of `validate_email` (lines 110-114):
start at 100, subtract 50 when disposable, subtract 30 when no MX record. -/
def raw_score (disposable mx_found : Bool) : Int :=
  100 - (if disposable then 50 else 0) - (if mx_found then 0 else 30)

/-! ## Disposable and suspicious checks (lines 20, 89-96) -/

/-- Embedding of the constant `suspicious_tlds` (line 20 of `src/main.py`). -/
def suspicious_tlds : List String :=
  ["xyz", "top", "tk", "lol", "click", "gq", "cf"]

/-- Embedding of `email.split("@")[-1].lower()` (lines 90, 94, 107). -/
def domainOf (email : String) : String :=
  lowerStr ⟨afterLast '@' email.data⟩

/-- Embedding of `domain.split(".")[-1]` (line 95). -/
def tldOf (domain : String) : String :=
  ⟨afterLast '.' domain.data⟩

/-- Embedding of `is_suspicious` (lines 93-96 of `src/main.py`). -/
def is_suspicious (email : String) : Bool :=
  decide (tldOf (domainOf email) ∈ suspicious_tlds)

/-- Embedding of `is_disposable` (lines 89-91 of `src/main.py`); the global
`disposable_domains` set is passed explicitly as `cache`. -/
def is_disposable (cache : Finset String) (email : String) : Bool :=
  decide (domainOf email ∈ cache) || is_suspicious email

/-! ## MX resolution (`has_mx_record`, lines 98-104) and its `lru_cache` -/

/-- Failure modes of DNS resolution; all are caught by the bare `except` of
`has_mx_record`. -/
inductive DnsFailure
  | nxdomain
  | timeout
  | malformed
  | other
deriving DecidableEq

/-- Embedding of the body of `has_mx_record` (lines 99-104 of `src/main.py`):
DNS resolution is an oracle returning either the list of MX answers or a
failure; any failure yields `false`, otherwise the answer count is tested. -/
def has_mx_record (resolve : String → Except DnsFailure (List Nat))
    (domain : String) : Bool :=
  match resolve domain with
  | Except.ok answers => decide (0 < answers.length)
  | Except.error _ => false

/-- The `maxsize` argument of the `lru_cache` decorator on `has_mx_record`
(line 98 of `src/main.py`). -/
def MX_CACHE_CAPACITY : Nat := 1000

/-- State of the `lru_cache` memoisation: an association list from domain to
cached boolean, most recently used first. -/
abbrev MxCache := List (String × Bool)

/-- One memoised call through the `lru_cache` wrapper: on a hit the cached
value is returned and the entry moves to the front; on a miss the underlying
oracle is queried, the entry is inserted in front and the list is truncated
to capacity (evicting the least recently used entry). Returns the result,
the new cache and whether an underlying query was issued. -/
def cache_lookup (oracle : String → Bool) (c : MxCache) (d : String) :
    Bool × MxCache × Bool :=
  match c.find? (fun e => e.1 == d) with
  | some e => (e.2, (d, e.2) :: c.eraseP (fun e => e.1 == d), false)
  | none => (oracle d, ((d, oracle d) :: c).take MX_CACHE_CAPACITY, true)

/-- Run a sequence of memoised lookups, returning the results in order, the
final cache, and the list of domains for which an underlying DNS query was
issued (with multiplicity). -/
def run_mx (oracle : String → Bool) :
    List String → MxCache → List Bool × MxCache × List String
  | [], c => ([], c, [])
  | d :: ds, c =>
    let step := cache_lookup oracle c d
    let rest := run_mx oracle ds step.2.1
    (step.1 :: rest.1, rest.2.1, (if step.2.2 then [d] else []) ++ rest.2.2)

/-! ## Domain-list fetching (`update_disposable_list`, lines 27-44, and the
refresh loop, lines 54-61) -/

/-- Outcome of one `requests.get` call that returned a response: the HTTP
status code, the JSON decoding of the body when it parses as a list of
strings (`none` models a `response.json()` that raises), and the raw text. -/
structure SourceResponse where
  status : Nat
  jsonData : Option (List String)
  text : String

/-- Outcome of fetching one source: either the request raised (caught by the
`except` on line 42) or a response came back. -/
inductive FetchResult
  | exn
  | success (r : SourceResponse)

/-- One disposable-list source: its URL (which selects the parsing mode via
`url.endswith(".json")`) and the fetch outcome. -/
structure Source where
  url : String
  result : FetchResult

/-- Embedding of the line-delimited parse (lines 37-38 of `src/main.py`):
split on newlines, keep lines that are non-empty after stripping, and take
the stripped, lowercased line. -/
def lineElems (text : String) : List String :=
  (splitOnChar '\n' text.data).filterMap (fun line =>
    let t := stripChars line
    if t = [] then none else some ⟨lowerChars t⟩)

/-- The set of domains a single source contributes to the union built by
`update_disposable_list` (lines 30-43 of `src/main.py`): nothing on a raised
request, a non-200 status, or a failed JSON decode; the lowercased JSON list
in structured mode; the parsed lines in line-delimited mode. -/
def perSource (src : Source) : Finset String :=
  match src.result with
  | FetchResult.exn => ∅
  | FetchResult.success r =>
    if r.status = 200 then
      if urlIsJson src.url then
        match r.jsonData with
        | some data => (data.map lowerStr).toFinset
        | none => ∅
      else (lineElems r.text).toFinset
    else ∅

/-- A source counts as failed exactly when the code takes one of its logged
failure branches: the request raised, the status is not 200, or the JSON
decode raised in structured mode. -/
def sourceFailed (src : Source) : Bool :=
  match src.result with
  | FetchResult.exn => true
  | FetchResult.success r =>
    if r.status = 200 then
      if urlIsJson src.url then
        match r.jsonData with
        | some _ => false
        | none => true
      else false
    else true

/-- Embedding of `update_disposable_list` (lines 27-44 of `src/main.py`):
union the contributions of all sources into one set. -/
def update_disposable_list (srcs : List Source) : Finset String :=
  srcs.foldl (fun acc s => acc ∪ perSource s) ∅

/-- Embedding of one iteration of `refresh_disposable_list_loop` (lines
54-61 of `src/main.py`): fetch, and replace the published set only when the
fetched set is non-empty (Python truthiness of `updated_set`). -/
def refresh_tick (srcs : List Source) (current : Finset String) : Finset String :=
  let updated := update_disposable_list srcs
  if updated = ∅ then current else updated

/-! ## Validation results (`validate_email`, lines 106-121) -/

/-- The dictionary returned by `validate_email` (lines 115-121). The `score`
field is the rendered string of the Python f-string on line 120. -/
structure ValidationResult where
  email : String
  valid_format : Bool
  disposable : Bool
  mx_found : Bool
  score : String
deriving DecidableEq

/-- Embedding of `validate_email` (lines 106-121 of `src/main.py`). The
published domain set and the effective MX-lookup function are passed
explicitly. Note that the clamp `max(score, 0)` is applied to the displayed
integer while `interpret_score` receives the unclamped score, as in the
source. -/
def validate_email (cache : Finset String) (mx : String → Bool)
    (email : String) : ValidationResult :=
  { email := email
    valid_format := true
    disposable := is_disposable cache email
    mx_found := mx (domainOf email)
    score :=
      toString (max (raw_score (is_disposable cache email) (mx (domainOf email))) 0) ++
        " (" ++
        interpret_score (raw_score (is_disposable cache email) (mx (domainOf email))) ++
        ")" }

/-! ## Bulk validation (`validate_bulk_emails`, lines 129-136) -/

/-- Completion of concurrent tasks modelled as slot filling: each completion
event `i` stores the result of task `i` into slot `i`, in the order given by
the scheduler. -/
def fill_slots (f : Nat → α) (order : List Nat) (slots : List (Option α)) :
    List (Option α) :=
  order.foldl (fun sl i => sl.set i (some (f i))) slots

/-- Model of `asyncio.gather`: `n` tasks start with empty slots; the
completion events arrive in an arbitrary scheduler order; the gathered output
is the slot list, indexed by task number. -/
def gather_run (f : Nat → α) (n : Nat) (order : List Nat) : List (Option α) :=
  fill_slots f order (List.replicate n none)

/-- Embedding of `validate_bulk_emails` (lines 129-136 of `src/main.py`):
one validation task per input email, gathered under a scheduler completion
order. -/
def validate_bulk_emails (cache : Finset String) (mx : String → Bool)
    (emails : List String) (order : List Nat) : List (Option ValidationResult) :=
  gather_run (fun i => validate_email cache mx (emails.getD i "")) emails.length order

/-! ## Auxiliary predicates and concrete example inputs used by witnesses -/

/-- A cache is well formed for an oracle when every stored value is the
oracle value of its key. -/
def MxWF (oracle : String → Bool) (c : MxCache) : Prop :=
  ∀ e ∈ c, e.2 = oracle e.1

/-- A string with no uppercase character. -/
def noUpper (s : String) : Bool :=
  s.data.all (fun c => !c.isUpper)

/-- Example line-delimited source carrying two domains with mixed case and
stray whitespace. -/
def lineSrc : Source :=
  ⟨"list.txt", FetchResult.success ⟨200, none, "Foo.COM\n\n bar.net "⟩⟩

/-- Example structured source that succeeds (status 200, JSON decodes) but
carries an empty list. -/
def emptyJsonSrc : Source :=
  ⟨"a.json", FetchResult.success ⟨200, some [], ""⟩⟩

/-- Example structured source that succeeds and whose JSON list contains the
empty string. -/
def emptyStringJsonSrc : Source :=
  ⟨"b.json", FetchResult.success ⟨200, some [""], ""⟩⟩

/-- The 1000 pairwise distinct non-empty domains used to exercise eviction in
the MX cache. -/
def evictKeys : List String :=
  (List.range MX_CACHE_CAPACITY).map (fun i => String.mk (List.replicate (i + 1) 'a'))

/-- A concrete DNS oracle answering true for every domain, used in concrete
runs of the memoised MX lookup. -/
def trueOracle : String → Bool := fun _ => true

/-! ## Helper lemmas -/

/-- Lowercasing a character never yields an uppercase character. -/
theorem isUpper_toLower (c : Char) : (Char.toLower c).isUpper = false := by
  by_cases h : c.toNat ≥ 65 ∧ c.toNat ≤ 90
  · have hv : (c.toNat + 32).isValidChar := by
      left
      omega
    simp only [Char.toLower, h, if_true]
    rw [Char.ofNat, dif_pos hv]
    simp [Char.ofNatAux, Char.isUpper, UInt32.le_def, BitVec.le_def]
    omega
  · simp only [Char.toLower, h, if_false]
    simp only [Char.isUpper]
    simp only [Char.toNat, UInt32.le_def, BitVec.le_def] at h ⊢
    simp [UInt32.toNat] at h ⊢
    omega

/-- Strings built by `lowerChars` contain no uppercase character. -/
theorem noUpper_mk_lowerChars (l : List Char) : noUpper ⟨lowerChars l⟩ = true := by
  simp only [noUpper, lowerChars, List.all_eq_true, List.mem_map]
  rintro c ⟨a, -, rfl⟩
  simp [isUpper_toLower]

/-- Strings built by `lowerChars` from a non-empty character list are not the
empty string. -/
theorem mk_lowerChars_ne_empty (l : List Char) (h : l ≠ []) :
    (⟨lowerChars l⟩ : String) ≠ "" := by
  intro hc
  apply h
  have hd : lowerChars l = [] := congrArg String.data hc
  simpa [lowerChars] using hd

/-- Membership in the folded union computed by `update_disposable_list`. -/
theorem mem_foldl_union (srcs : List Source) (acc : Finset String) (x : String) :
    x ∈ srcs.foldl (fun a s => a ∪ perSource s) acc ↔
      x ∈ acc ∨ ∃ s ∈ srcs, x ∈ perSource s := by
  induction srcs generalizing acc with
  | nil => simp
  | cons hd tl ih =>
    simp only [List.foldl_cons, ih, Finset.mem_union, List.mem_cons]
    constructor
    · rintro ((h | h) | ⟨s, hs, hx⟩)
      · exact Or.inl h
      · exact Or.inr ⟨hd, Or.inl rfl, h⟩
      · exact Or.inr ⟨s, Or.inr hs, hx⟩
    · rintro (h | ⟨s, (rfl | hs), hx⟩)
      · exact Or.inl (Or.inl h)
      · exact Or.inl (Or.inr hx)
      · exact Or.inr ⟨s, hs, hx⟩

/-- Membership in the result of `update_disposable_list`. -/
theorem mem_update_disposable_list (srcs : List Source) (x : String) :
    x ∈ update_disposable_list srcs ↔ ∃ s ∈ srcs, x ∈ perSource s := by
  simp [update_disposable_list, mem_foldl_union]

/-- A failed source contributes no domains. -/
theorem perSource_of_failed (s : Source) (h : sourceFailed s = true) :
    perSource s = ∅ := by
  obtain ⟨url, res⟩ := s
  cases res with
  | exn => rfl
  | success r =>
    obtain ⟨status, jsonData, text⟩ := r
    simp only [sourceFailed] at h
    simp only [perSource]
    by_cases h200 : status = 200
    · rw [if_pos h200] at h ⊢
      by_cases hj : urlIsJson url = true
      · rw [if_pos hj] at h ⊢
        cases jsonData with
        | some data => simp at h
        | none => rfl
      · rw [if_neg hj] at h ⊢
        simp at h
    · rw [if_neg h200]

/-- Every element contributed by a source contains no uppercase character. -/
theorem perSource_noUpper (s : Source) (x : String) (hx : x ∈ perSource s) :
    noUpper x = true := by
  obtain ⟨url, res⟩ := s
  cases res with
  | exn => simp [perSource] at hx
  | success r =>
    obtain ⟨status, jsonData, text⟩ := r
    simp only [perSource] at hx
    by_cases h200 : status = 200
    · rw [if_pos h200] at hx
      by_cases hj : urlIsJson url = true
      · rw [if_pos hj] at hx
        cases jsonData with
        | some data =>
          simp only [List.mem_toFinset, List.mem_map] at hx
          obtain ⟨y, -, rfl⟩ := hx
          exact noUpper_mk_lowerChars y.data
        | none => simp at hx
      · rw [if_neg hj] at hx
        simp only [List.mem_toFinset, lineElems, List.mem_filterMap] at hx
        obtain ⟨line, -, hline⟩ := hx
        by_cases ht : stripChars line = []
        · simp [ht] at hline
        · simp only [ht, if_neg, ite_eq_right_iff] at hline
          rw [← Option.some_inj.1 hline]
          exact noUpper_mk_lowerChars (stripChars line)
    · rw [if_neg h200] at hx
      simp at hx

/-- Every element contributed by a line-delimited source is non-empty. -/
theorem perSource_line_ne_empty (s : Source) (x : String)
    (hmode : urlIsJson s.url = false) (hx : x ∈ perSource s) : x ≠ "" := by
  obtain ⟨url, res⟩ := s
  cases res with
  | exn => simp [perSource] at hx
  | success r =>
    obtain ⟨status, jsonData, text⟩ := r
    simp only [perSource] at hx
    simp only at hmode
    by_cases h200 : status = 200
    · rw [if_pos h200, hmode] at hx
      simp only [Bool.false_eq_true, if_false, List.mem_toFinset, lineElems,
        List.mem_filterMap] at hx
      obtain ⟨line, -, hline⟩ := hx
      by_cases ht : stripChars line = []
      · simp [ht] at hline
      · simp only [ht, if_neg, ite_eq_right_iff] at hline
        rw [← Option.some_inj.1 hline]
        exact mk_lowerChars_ne_empty (stripChars line) ht
    · rw [if_neg h200] at hx
      simp at hx

/-! ## Claim theorems -/

/-- C3: the score equals 100 minus 50 when disposable and minus 30 when no MX
record is found, clamped to a minimum of 0, giving 50, 70, 20 and 100 on the
four flag combinations; and `interpret_score` chooses the tier text by the
thresholds 90, 70 and 40. -/
theorem c3_score_values_and_tiers :
    (∀ d m : Bool, max (raw_score d m) 0 =
      if d then (if m then 50 else 20) else (if m then 100 else 70)) ∧
    (∀ s : Int,
      (90 ≤ s → interpret_score s = "High trust: valid format, likely safe") ∧
      (70 ≤ s → s < 90 →
        interpret_score s = "Medium trust: may be valid but needs caution") ∧
      (40 ≤ s → s < 70 →
        interpret_score s = "Low trust: suspicious or disposable") ∧
      (s < 40 → interpret_score s = "Very low trust: likely fake or invalid")) := by
  constructor
  · intro d m
    cases d <;> cases m <;> rfl
  · intro s
    refine ⟨fun h1 => ?_, fun h1 h2 => ?_, fun h1 h2 => ?_, fun h1 => ?_⟩ <;>
      simp only [interpret_score]
    · rw [if_pos h1]
    · rw [if_neg (by omega), if_pos h1]
    · rw [if_neg (by omega), if_neg (by omega), if_pos h1]
    · rw [if_neg (by omega), if_neg (by omega), if_neg (by omega)]

/-- C3 witness: the theorem instantiated at concrete flags and scores. -/
theorem c3_score_values_and_tiers_witness :
    max (raw_score true true) 0 = 50 ∧
    interpret_score 100 = "High trust: valid format, likely safe" ∧
    interpret_score 70 = "Medium trust: may be valid but needs caution" ∧
    interpret_score 50 = "Low trust: suspicious or disposable" ∧
    interpret_score 20 = "Very low trust: likely fake or invalid" :=
  ⟨c3_score_values_and_tiers.1 true true,
   (c3_score_values_and_tiers.2 100).1 (by decide),
   (c3_score_values_and_tiers.2 70).2.1 (by decide) (by decide),
   (c3_score_values_and_tiers.2 50).2.2.1 (by decide) (by decide),
   (c3_score_values_and_tiers.2 20).2.2.2 (by decide)⟩

/-- C9: for every validated email there is an integer score between 0 and
100 such that the `score` field of the result renders as the string
`<int> (<tier text>)` where the tier text is one of the four trust labels. -/
theorem c9_score_integer_range_and_rendering (cache : Finset String)
    (mx : String → Bool) (email : String) :
    ∃ s : Int, 0 ≤ s ∧ s ≤ 100 ∧
      (validate_email cache mx email).score =
        toString s ++ " (" ++ interpret_score s ++ ")" ∧
      (interpret_score s = "High trust: valid format, likely safe" ∨
       interpret_score s = "Medium trust: may be valid but needs caution" ∨
       interpret_score s = "Low trust: suspicious or disposable" ∨
       interpret_score s = "Very low trust: likely fake or invalid") := by
  refine ⟨raw_score (is_disposable cache email) (mx (domainOf email)),
    ?_, ?_, ?_, ?_⟩ <;>
    cases hd : is_disposable cache email <;>
      cases hm : mx (domainOf email) <;>
        (try simp only [validate_email, hd, hm]) <;> decide

/-- C10: the raw score computed before clamping is always one of 20, 50, 70
and 100, the clamp `max(score, 0)` never changes the value, the tier of the
unclamped score agrees with the tier of the clamped displayed integer, and
the rendered `score` field uses exactly this value. -/
theorem c10_raw_score_clamp_agreement (cache : Finset String)
    (mx : String → Bool) (email : String) :
    (raw_score (is_disposable cache email) (mx (domainOf email)) = 20 ∨
     raw_score (is_disposable cache email) (mx (domainOf email)) = 50 ∨
     raw_score (is_disposable cache email) (mx (domainOf email)) = 70 ∨
     raw_score (is_disposable cache email) (mx (domainOf email)) = 100) ∧
    max (raw_score (is_disposable cache email) (mx (domainOf email))) 0 =
      raw_score (is_disposable cache email) (mx (domainOf email)) ∧
    interpret_score
        (max (raw_score (is_disposable cache email) (mx (domainOf email))) 0) =
      interpret_score (raw_score (is_disposable cache email) (mx (domainOf email))) ∧
    (validate_email cache mx email).score =
      toString (raw_score (is_disposable cache email) (mx (domainOf email))) ++
        " (" ++
        interpret_score (raw_score (is_disposable cache email) (mx (domainOf email))) ++
        ")" := by
  refine ⟨?_, ?_, ?_, ?_⟩ <;>
    cases hd : is_disposable cache email <;>
      cases hm : mx (domainOf email) <;>
        (try simp only [validate_email, hd, hm]) <;> decide

/-- C4: the disposable flag of a validation is true exactly when the
lowercased domain after the last at-sign is in the published set or its TLD
after the last dot is in the fixed suspicious-TLD set; in particular a TLD of
`xyz` forces the flag to true and membership in neither yields false. -/
theorem c4_disposable_characterisation (cache : Finset String)
    (mx : String → Bool) (email : String) :
    (validate_email cache mx email).disposable = is_disposable cache email ∧
    (is_disposable cache email = true ↔
      domainOf email ∈ cache ∨ tldOf (domainOf email) ∈ suspicious_tlds) ∧
    (tldOf (domainOf email) = "xyz" → is_disposable cache email = true) ∧
    (domainOf email ∉ cache → tldOf (domainOf email) ∉ suspicious_tlds →
      is_disposable cache email = false) := by
  refine ⟨rfl, ?_, ?_, ?_⟩
  · simp [is_disposable, is_suspicious]
  · intro h
    simp [is_disposable, is_suspicious, h, suspicious_tlds]
  · intro h1 h2
    simp [is_disposable, is_suspicious, h1, h2]

/-- C4 witness: an email whose domain has TLD `xyz` is flagged disposable
with an empty published set, and an email in neither the set nor the TLD
list is not flagged. -/
theorem c4_disposable_characterisation_witness :
    is_disposable ∅ "user@promo.xyz" = true ∧
    is_disposable ∅ "a@b.com" = false :=
  ⟨(c4_disposable_characterisation ∅ (fun _ => true) "user@promo.xyz").2.2.1
      (by decide),
   (c4_disposable_characterisation ∅ (fun _ => true) "a@b.com").2.2.2
      (by decide) (by decide)⟩

/-- C5: the MX lookup returns false whenever the underlying DNS resolution
fails, for every failure mode; no error propagates to the caller (the
embedding is a total function into booleans). -/
theorem c5_mx_failure_yields_false
    (resolve : String → Except DnsFailure (List Nat)) (domain : String)
    (e : DnsFailure) (h : resolve domain = Except.error e) :
    has_mx_record resolve domain = false := by
  simp [has_mx_record, h]

/-- C5 witness: a resolver that times out yields false. -/
theorem c5_mx_failure_yields_false_witness :
    has_mx_record (fun _ => Except.error DnsFailure.timeout) "example.com" = false :=
  c5_mx_failure_yields_false (fun _ => Except.error DnsFailure.timeout)
    "example.com" DnsFailure.timeout rfl

/-- C1: a refresh tick whose fetch yields the empty set leaves the published
set unchanged, and a tick whose fetch is non-empty replaces the published set
with the fetched set. -/
theorem c1_refresh_tick_replace_or_keep (srcs : List Source)
    (current : Finset String) :
    (update_disposable_list srcs = ∅ → refresh_tick srcs current = current) ∧
    (update_disposable_list srcs ≠ ∅ →
      refresh_tick srcs current = update_disposable_list srcs) := by
  constructor <;> intro h <;> simp [refresh_tick, h]

/-- C1 witness: with no successful fetch the previous set survives, and a
fetch carrying domains replaces an empty published set. -/
theorem c1_refresh_tick_replace_or_keep_witness :
    refresh_tick [] {"keep.me"} = {"keep.me"} ∧
    refresh_tick [lineSrc] ∅ = update_disposable_list [lineSrc] :=
  ⟨(c1_refresh_tick_replace_or_keep [] {"keep.me"}).1 rfl,
   (c1_refresh_tick_replace_or_keep [lineSrc] ∅).2 (by decide)⟩

/-- C2 counterexample: a source that succeeds (HTTP 200, JSON decodes) with
an empty list makes the fetch return the empty set even though not every
source failed, refuting the claim that an empty result implies that every
source failed. -/
theorem c2_counterexample_successful_empty_source :
    update_disposable_list [emptyJsonSrc] = ∅ ∧
    sourceFailed emptyJsonSrc = false := by
  constructor <;> decide

/-- C2 (amended): the fetch never raises (it is a total function in the
embedding); if every source failed it returns the empty set; and it returns
the empty set exactly when every source contributed no domains (failed, or
succeeded with an empty payload). -/
theorem c2_empty_result_characterisation (srcs : List Source) :
    ((∀ s ∈ srcs, sourceFailed s = true) → update_disposable_list srcs = ∅) ∧
    (update_disposable_list srcs = ∅ ↔ ∀ s ∈ srcs, perSource s = ∅) := by
  have hiff : update_disposable_list srcs = ∅ ↔ ∀ s ∈ srcs, perSource s = ∅ := by
    constructor
    · intro h s hs
      rw [Finset.eq_empty_iff_forall_not_mem] at h ⊢
      intro x hx
      exact h x ((mem_update_disposable_list srcs x).2 ⟨s, hs, hx⟩)
    · intro h
      rw [Finset.eq_empty_iff_forall_not_mem]
      intro x hx
      obtain ⟨s, hs, hxs⟩ := (mem_update_disposable_list srcs x).1 hx
      rw [h s hs] at hxs
      exact absurd hxs (Finset.not_mem_empty x)
  exact ⟨fun h => hiff.2 fun s hs => perSource_of_failed s (h s hs), hiff⟩

/-- C2 witness: a run where every source failed returns the empty set, and
the empty-result characterisation at the successful-but-empty source. -/
theorem c2_empty_result_characterisation_witness :
    update_disposable_list [Source.mk "x.txt" FetchResult.exn] = ∅ ∧
    (update_disposable_list [emptyJsonSrc] = ∅ ↔
      ∀ s ∈ [emptyJsonSrc], perSource s = ∅) :=
  ⟨(c2_empty_result_characterisation [Source.mk "x.txt" FetchResult.exn]).1
      (by decide),
   (c2_empty_result_characterisation [emptyJsonSrc]).2⟩

/-- C8 counterexample: a structured source whose JSON list contains the empty
string puts the empty string into the fetched set, refuting the claim that no
element produced by a fetch is empty in either parsing mode. -/
theorem c8_counterexample_empty_string_from_json :
    "" ∈ update_disposable_list [emptyStringJsonSrc] := by
  decide

/-- C8 (amended): every element of a fetched set is free of uppercase
characters in both parsing modes, and every element contributed by a
line-delimited source is non-empty; structured JSON sources lowercase their
entries but do not filter empty strings. -/
theorem c8_fetched_elements_lowercase_line_nonempty :
    (∀ srcs x, x ∈ update_disposable_list srcs → noUpper x = true) ∧
    (∀ s x, urlIsJson s.url = false → x ∈ perSource s → x ≠ "") := by
  constructor
  · intro srcs x hx
    obtain ⟨s, -, hxs⟩ := (mem_update_disposable_list srcs x).1 hx
    exact perSource_noUpper s x hxs
  · exact fun s x hmode hx => perSource_line_ne_empty s x hmode hx

/-- C8 witness: the amended theorem applied to the example line-delimited
source, whose contributed domain is lowercase and non-empty. -/
theorem c8_fetched_elements_lowercase_line_nonempty_witness :
    noUpper "foo.com" = true ∧ ("foo.com" : String) ≠ "" :=
  ⟨c8_fetched_elements_lowercase_line_nonempty.1 [lineSrc] "foo.com" (by decide),
   c8_fetched_elements_lowercase_line_nonempty.2 lineSrc "foo.com"
      (by decide) (by decide)⟩

/-- Slot filling preserves the number of slots. -/
theorem fill_slots_length (f : Nat → α) (order : List Nat)
    (slots : List (Option α)) :
    (fill_slots f order slots).length = slots.length := by
  induction order generalizing slots with
  | nil => rfl
  | cons i rest ih =>
    simp only [fill_slots, List.foldl_cons] at ih ⊢
    rw [ih, List.length_set]

/-- A slot whose index never completes keeps its value. -/
theorem fill_slots_not_mem (f : Nat → α) (order : List Nat)
    (slots : List (Option α)) (j : Nat) (hj : j ∉ order) :
    (fill_slots f order slots)[j]? = slots[j]? := by
  induction order generalizing slots with
  | nil => rfl
  | cons i rest ih =>
    simp only [List.mem_cons, not_or] at hj
    simp only [fill_slots, List.foldl_cons] at ih ⊢
    rw [ih (slots.set i (some (f i))) hj.2,
      List.getElem?_set_ne (fun h => hj.1 h.symm)]

/-- A slot whose index completes at least once holds the value of its task. -/
theorem fill_slots_mem (f : Nat → α) (order : List Nat)
    (slots : List (Option α)) (j : Nat) (hj : j ∈ order)
    (hlen : j < slots.length) :
    (fill_slots f order slots)[j]? = some (some (f j)) := by
  induction order generalizing slots with
  | nil => cases hj
  | cons i rest ih =>
    simp only [fill_slots, List.foldl_cons] at ih ⊢
    by_cases hr : j ∈ rest
    · exact ih (slots.set i (some (f i))) hr (by simpa using hlen)
    · have hij : j = i := by
        rcases List.mem_cons.1 hj with h | h
        · exact h
        · exact absurd h hr
      subst hij
      have hnm := fill_slots_not_mem f rest (slots.set j (some (f j))) j hr
      simp only [fill_slots] at hnm
      rw [hnm]
      simp [List.getElem?_set_self, hlen]

/-- C6: for every completion order of the concurrent per-email tasks (any
permutation of the task indices), bulk validation returns exactly one result
per input and the i-th output is the validation of the i-th input — the
gathered list equals mapping single-email validation over the inputs in
order. -/
theorem c6_bulk_preserves_input_order (cache : Finset String)
    (mx : String → Bool) (emails : List String) (order : List Nat)
    (h : order.Perm (List.range emails.length)) :
    validate_bulk_emails cache mx emails order =
      emails.map (fun e => some (validate_email cache mx e)) := by
  apply List.ext_getElem?
  intro j
  by_cases hj : j < emails.length
  · have hmem : j ∈ order := h.mem_iff.2 (List.mem_range.2 hj)
    rw [validate_bulk_emails, gather_run,
      fill_slots_mem _ _ _ _ hmem (by simpa using hj)]
    rw [List.getElem?_map, List.getElem?_eq_getElem hj]
    simp [List.getD_eq_getElem?_getD, List.getElem?_eq_getElem hj]
  · have hmem : j ∉ order := fun hc => hj (List.mem_range.1 (h.mem_iff.1 hc))
    rw [validate_bulk_emails, gather_run, fill_slots_not_mem _ _ _ _ hmem]
    rw [List.getElem?_eq_none (by simpa using Nat.le_of_not_lt hj),
      List.getElem?_eq_none (by simpa using Nat.le_of_not_lt hj)]

/-- C6 witness: two emails gathered under the completion order in which the
second task finishes first still produce results in input order. -/
theorem c6_bulk_preserves_input_order_witness :
    ([1, 0] : List Nat).Perm (List.range (["a@x.com", "b@y.com"] : List String).length) ∧
    validate_bulk_emails ∅ (fun _ => true) ["a@x.com", "b@y.com"] [1, 0] =
      ["a@x.com", "b@y.com"].map (fun e => some (validate_email ∅ (fun _ => true) e)) :=
  ⟨by decide,
   c6_bulk_preserves_input_order ∅ (fun _ => true) ["a@x.com", "b@y.com"]
     [1, 0] (by decide)⟩

/-- Under well-formedness, a memoised lookup returns the oracle value of the
domain, whether it hits or misses. -/
theorem cache_lookup_result (oracle : String → Bool) (c : MxCache) (d : String)
    (hwf : MxWF oracle c) : (cache_lookup oracle c d).1 = oracle d := by
  unfold cache_lookup
  cases hf : c.find? (fun e => e.1 == d) with
  | none => rfl
  | some e =>
    have hmem : e ∈ c := List.mem_of_find?_eq_some hf
    have hpe : e.1 = d := by simpa using List.find?_some hf
    simp only
    rw [hwf e hmem, hpe]

/-- A memoised lookup preserves well-formedness of the cache. -/
theorem cache_lookup_wf (oracle : String → Bool) (c : MxCache) (d : String)
    (hwf : MxWF oracle c) : MxWF oracle (cache_lookup oracle c d).2.1 := by
  unfold cache_lookup
  cases hf : c.find? (fun e => e.1 == d) with
  | none =>
    intro e he
    simp only at he
    rcases List.mem_cons.1 (List.take_subset _ _ he) with h | h
    · subst h; rfl
    · exact hwf e h
  | some e0 =>
    intro e he
    simp only at he
    rcases List.mem_cons.1 he with h | h
    · have hmem : e0 ∈ c := List.mem_of_find?_eq_some hf
      have hpe : e0.1 = d := by simpa using List.find?_some hf
      subst h
      rw [hwf e0 hmem, hpe]
    · exact hwf e (List.eraseP_subset _ h)

/-- A memoised lookup never lets the cache grow beyond capacity. -/
theorem cache_lookup_capacity (oracle : String → Bool) (c : MxCache)
    (d : String) (hle : c.length ≤ MX_CACHE_CAPACITY) :
    (cache_lookup oracle c d).2.1.length ≤ MX_CACHE_CAPACITY := by
  unfold cache_lookup
  cases hf : c.find? (fun e => e.1 == d) with
  | none =>
    simp only [List.length_take]
    omega
  | some e =>
    have hmem : e ∈ c := List.mem_of_find?_eq_some hf
    have hlen := @List.length_eraseP_add_one _ (fun x => x.1 == d) c e hmem
      (@List.find?_some _ (fun x => x.1 == d) e c hf)
    simp only [List.length_cons]
    omega

/-- Results of a run of memoised lookups over a well-formed cache are the
oracle values, in order: repeated lookups of one domain always return the
same boolean. -/
theorem run_mx_results (oracle : String → Bool) (ds : List String)
    (c : MxCache) (hwf : MxWF oracle c) :
    (run_mx oracle ds c).1 = ds.map oracle := by
  induction ds generalizing c with
  | nil => rfl
  | cons d rest ih =>
    simp only [run_mx, List.map_cons]
    rw [cache_lookup_result oracle c d hwf,
      ih _ (cache_lookup_wf oracle c d hwf)]

/-- Two consecutive lookups of one domain issue at most one underlying DNS
query: the second lookup always hits. -/
theorem run_mx_double_lookup (oracle : String → Bool) (c : MxCache)
    (d : String) : ((run_mx oracle [d, d] c).2.2).count d ≤ 1 := by
  cases hf : c.find? (fun e => e.1 == d) with
  | some e =>
    simp only [run_mx, cache_lookup, hf]
    rw [List.find?_cons_of_pos _ (by simp)]
    simp
  | none =>
    simp only [run_mx, cache_lookup, hf]
    rw [show MX_CACHE_CAPACITY = 999 + 1 from rfl, List.take_succ_cons]
    rw [List.find?_cons_of_pos _ (by simp)]
    simp

/-- A run of memoised lookups keeps the cache within capacity. -/
theorem run_mx_capacity (oracle : String → Bool) (ds : List String)
    (c : MxCache) (hle : c.length ≤ MX_CACHE_CAPACITY) :
    (run_mx oracle ds c).2.1.length ≤ MX_CACHE_CAPACITY := by
  induction ds generalizing c with
  | nil => simpa [run_mx] using hle
  | cons d rest ih =>
    simp only [run_mx]
    exact ih _ (cache_lookup_capacity oracle c d hle)

/-- A miss on a full cache evicts exactly the least recently used entry (the
last of the most-recently-used-first list). -/
theorem cache_lookup_evicts_lru (oracle : String → Bool) (c : MxCache)
    (d : String) (hfull : c.length = MX_CACHE_CAPACITY)
    (hmiss : c.find? (fun e => e.1 == d) = none) :
    (cache_lookup oracle c d).2.1 = (d, oracle d) :: c.dropLast := by
  unfold cache_lookup
  rw [hmiss]
  simp only
  rw [show MX_CACHE_CAPACITY = 999 + 1 from rfl, List.take_succ_cons]
  rw [List.dropLast_eq_take, hfull]
  rfl

/-- C7 (amended): over any run of memoised MX lookups against a well-formed
cache, every lookup of a domain returns the same boolean (the oracle value);
two consecutive lookups of one domain issue at most one underlying DNS
query; the cache never holds more than 1000 entries; and a miss on a full
cache evicts exactly the least recently used entry. A second query for the
same domain can still occur once the domain has been evicted. -/
theorem c7_memoisation_properties :
    (∀ (oracle : String → Bool) (ds : List String) (c : MxCache),
      MxWF oracle c → (run_mx oracle ds c).1 = ds.map oracle) ∧
    (∀ (oracle : String → Bool) (c : MxCache) (d : String),
      ((run_mx oracle [d, d] c).2.2).count d ≤ 1) ∧
    (∀ (oracle : String → Bool) (ds : List String) (c : MxCache),
      c.length ≤ MX_CACHE_CAPACITY →
        (run_mx oracle ds c).2.1.length ≤ MX_CACHE_CAPACITY) ∧
    (∀ (oracle : String → Bool) (c : MxCache) (d : String),
      c.length = MX_CACHE_CAPACITY →
        c.find? (fun e => e.1 == d) = none →
          (cache_lookup oracle c d).2.1 = (d, oracle d) :: c.dropLast) :=
  ⟨run_mx_results, run_mx_double_lookup, run_mx_capacity,
   cache_lookup_evicts_lru⟩

/-- C7 witness: the memoisation properties instantiated on a concrete double
lookup starting from the empty cache. -/
theorem c7_memoisation_properties_witness :
    (run_mx (fun _ => true) ["example.com", "example.com"] []).1 =
      (["example.com", "example.com"] : List String).map (fun _ => true) ∧
    ((run_mx (fun _ => true) ["example.com", "example.com"] []).2.2).count
      "example.com" ≤ 1 ∧
    (run_mx (fun _ => true) ["example.com", "example.com"] []).2.1.length ≤
      MX_CACHE_CAPACITY :=
  ⟨c7_memoisation_properties.1 (fun _ => true) ["example.com", "example.com"]
      [] (fun e he => absurd he (List.not_mem_nil e)),
   c7_memoisation_properties.2.1 (fun _ => true) [] "example.com",
   c7_memoisation_properties.2.2.1 (fun _ => true)
      ["example.com", "example.com"] [] (by decide)⟩

/-- Queries of a run over appended lookup lists decompose sequentially. -/
theorem run_mx_append (oracle : String → Bool) (l1 l2 : List String)
    (c : MxCache) :
    run_mx oracle (l1 ++ l2) c =
      ((run_mx oracle l1 c).1 ++ (run_mx oracle l2 (run_mx oracle l1 c).2.1).1,
       (run_mx oracle l2 (run_mx oracle l1 c).2.1).2.1,
       (run_mx oracle l1 c).2.2 ++
         (run_mx oracle l2 (run_mx oracle l1 c).2.1).2.2) := by
  induction l1 generalizing c with
  | nil => simp [run_mx]
  | cons d rest ih =>
    simp only [List.cons_append, run_mx, List.append_eq]
    rw [ih]
    simp [List.append_assoc]

/-- Truncating an already truncated right part of an append truncates the
whole append. -/
theorem take_append_take (a l : List α) (n : Nat) :
    (a ++ l.take n).take n = (a ++ l).take n := by
  rw [List.take_append_eq_append_take, List.take_append_eq_append_take,
    List.take_take, Nat.min_eq_left (Nat.sub_le _ _)]

/-- Running lookups over pairwise distinct keys that are all absent from the
cache misses every time: each key is queried once and the final cache is the
truncation of the reversed new entries in front of the old cache. -/
theorem run_mx_fresh (oracle : String → Bool) (keys : List String)
    (c : MxCache) (hnd : keys.Nodup)
    (hfresh : ∀ k ∈ keys, ∀ e ∈ c, e.1 ≠ k)
    (hlen : c.length ≤ MX_CACHE_CAPACITY) :
    run_mx oracle keys c =
      (keys.map oracle,
       ((keys.reverse.map (fun k => (k, oracle k))) ++ c).take MX_CACHE_CAPACITY,
       keys) := by
  induction keys generalizing c with
  | nil =>
    simp only [run_mx, List.map_nil, List.reverse_nil, List.nil_append]
    rw [List.take_of_length_le hlen]
  | cons k rest ih =>
    have hmiss : c.find? (fun e => e.1 == k) = none := by
      rw [List.find?_eq_none]
      intro e he
      simp [hfresh k (List.mem_cons_self k rest) e he]
    have hknotin : k ∉ rest := (List.nodup_cons.1 hnd).1
    have hfresh' :
        ∀ k2 ∈ rest, ∀ e ∈ ((k, oracle k) :: c).take MX_CACHE_CAPACITY,
          e.1 ≠ k2 := by
      intro k2 hk2 e he
      rcases List.mem_cons.1 (List.take_subset _ _ he) with h | h
      · subst h
        intro hc
        have hkk : k = k2 := hc
        exact hknotin (by rw [hkk]; exact hk2)
      · exact hfresh k2 (List.mem_cons_of_mem _ hk2) e h
    simp only [run_mx, cache_lookup, hmiss]
    rw [ih _ (List.nodup_cons.1 hnd).2 hfresh' (List.length_take_le _ _)]
    rw [take_append_take]
    simp [List.append_assoc]

/-- The eviction keys are pairwise distinct. -/
theorem evictKeys_nodup : evictKeys.Nodup := by
  apply List.Nodup.map
  · intro i j h
    have hdata : List.replicate (i + 1) 'a' = List.replicate (j + 1) 'a' :=
      congrArg String.data h
    have hlen := congrArg List.length hdata
    simpa using hlen
  · exact List.nodup_range _

/-- No eviction key is the empty string. -/
theorem evictKeys_ne_empty : ∀ k ∈ evictKeys, k ≠ "" := by
  intro k hk
  simp only [evictKeys, List.mem_map, List.mem_range] at hk
  obtain ⟨i, -, rfl⟩ := hk
  intro hc
  have hdata : List.replicate (i + 1) 'a' = [] := congrArg String.data hc
  simp at hdata

/-- There are exactly 1000 eviction keys. -/
theorem evictKeys_length : evictKeys.length = MX_CACHE_CAPACITY := by
  simp [evictKeys]

/-- C7 counterexample: looking up a domain, then 1000 distinct other domains,
then the first domain again issues two underlying DNS queries for the first
domain — eviction from the capacity-1000 cache forces a second query, so
repeated lookups of one domain within a process do not always issue at most
one DNS query. -/
theorem c7_counterexample_eviction_requeries :
    ((run_mx trueOracle ("" :: (evictKeys ++ [""])) []).2.2).count "" = 2 := by
  have hA : run_mx trueOracle [""] ([] : MxCache) =
      ([true], [("", true)], [""]) := rfl
  have hfreshB : ∀ k ∈ evictKeys, ∀ e ∈ ([("", true)] : MxCache), e.1 ≠ k := by
    intro k hk e he
    rcases List.mem_singleton.1 he with rfl
    exact fun hc => evictKeys_ne_empty k hk hc.symm
  have hB := run_mx_fresh trueOracle evictKeys [("", true)] evictKeys_nodup
    hfreshB (by decide)
  have hlenA : (evictKeys.reverse.map (fun k => (k, trueOracle k))).length =
      MX_CACHE_CAPACITY := by
    simp [evictKeys_length]
  have hc2 : ((evictKeys.reverse.map (fun k => (k, trueOracle k))) ++
        [("", true)]).take MX_CACHE_CAPACITY =
      evictKeys.reverse.map (fun k => (k, trueOracle k)) := by
    rw [List.take_append_eq_append_take, hlenA, Nat.sub_self, List.take_zero,
      List.append_nil, ← hlenA, List.take_length]
  have hmissC :
      (evictKeys.reverse.map (fun k => (k, trueOracle k))).find?
        (fun e => e.1 == "") = none := by
    rw [List.find?_eq_none]
    intro e he
    simp only [List.mem_map, List.mem_reverse] at he
    obtain ⟨k, hk, rfl⟩ := he
    simpa using evictKeys_ne_empty k hk
  have hstepC : (cache_lookup trueOracle
        (evictKeys.reverse.map (fun k => (k, trueOracle k))) "").2.2 = true := by
    unfold cache_lookup
    rw [hmissC]
  have hqC : (run_mx trueOracle [""]
        (evictKeys.reverse.map (fun k => (k, trueOracle k)))).2.2 = [""] := by
    simp only [run_mx]
    rw [hstepC]
    simp
  have hsplit : ("" :: (evictKeys ++ [""])) = [""] ++ (evictKeys ++ [""]) :=
    (List.singleton_append).symm
  rw [hsplit, run_mx_append, hA, run_mx_append, hB]
  simp only [hc2, hqC, List.count_append]
  have hcount0 : evictKeys.count "" = 0 :=
    List.count_eq_zero_of_not_mem (fun h => evictKeys_ne_empty "" h rfl)
  simp [hcount0]

end SmartMailGuard
